import Mathlib

/-!
Verification of the revault_net noise/transport layer.

The development shallowly embeds the two source files `src/noise.rs` and
`src/transport.rs`.  Byte strings are `List Nat` (each element a byte value);
fixed-size Rust arrays `[u8; N]` become lists whose length invariants are
proved as theorems.  The external snow/Noise cryptographic engine is out of
scope of the repository and is modelled from the spec as an executable
engine (Diffie-Hellman over a small modular group, a keystream cipher with a
16-byte tag); the handshake and channel wrapper logic is translated from the
source.  Fallible Rust functions returning `Result` become `Except`.
-/

deriving instance DecidableEq for Except

namespace RevaultNet

/-! ## Constants from src/noise.rs -/

/-- The size of a key, either public or private, on the Curve25519. -/
def KEY_SIZE : Nat := 32

/-- Size of the poly1305 MAC. -/
def MAC_SIZE : Nat := 16

/-- Max message size specified by Noise Protocol Framework. -/
def NOISE_MESSAGE_MAX_SIZE : Nat := 65535

/-- Two bytes are used for the message length field at the front. -/
def LENGTH_PREFIX_SIZE : Nat := 2

/-- Message header length plus its MAC. -/
def NOISE_MESSAGE_HEADER_SIZE : Nat := LENGTH_PREFIX_SIZE + MAC_SIZE

/-- Maximum size of a message before being encrypted. -/
def NOISE_PLAINTEXT_MAX_SIZE : Nat :=
  NOISE_MESSAGE_MAX_SIZE - NOISE_MESSAGE_HEADER_SIZE - MAC_SIZE

/-- Sent for versioning and identification during handshake
(`b"practical_revault_0"` in the source, as byte values). -/
def HANDSHAKE_MESSAGE : List Nat := "practical_revault_0".data.map Char.toNat

/-- Size of the first handshake message (e, es, ss):
`KEY_SIZE + HANDSHAKE_MESSAGE.len() + MAC_SIZE`. -/
def KK_MSG_1_SIZE : Nat := KEY_SIZE + HANDSHAKE_MESSAGE.length + MAC_SIZE

/-- Size of the second handshake message (e, ee, se). -/
def KK_MSG_2_SIZE : Nat := KEY_SIZE + MAC_SIZE

/-! ## Error types

Modelled from the spec: the repository's `error.rs` (the `NoiseError` and
`Error` enums) is not under `src/`; the spec's section 7 lists the error
kinds: crypto failure, invalid plaintext, invalid ciphertext, handshake
mismatch, missing static key, and stream I/O failure. -/

/-- Errors of the noise layer.  `snowError` stands for any error surfaced by
the underlying cryptographic engine. -/
inductive NoiseError where
  | snowError
  | invalidPlaintext
  | invalidCiphertext
  | badHandshake
  | missingStaticKey
deriving DecidableEq

/-- The kind of a stream I/O error (`std::io::ErrorKind`); only the kinds the
transport code distinguishes are kept, everything else is `other`. -/
inductive IOErrorKind where
  | unexpectedEof
  | interrupted
  | other (code : Nat)
deriving DecidableEq

/-- Transport-layer error (`Error` in `error.rs`): a stream I/O failure or a
wrapped noise error. -/
inductive Error where
  | transport (k : IOErrorKind)
  | noise (e : NoiseError)
deriving DecidableEq

/-! ## Model cipher

Modelled from the spec: the AEAD used by the engine appends a 16-byte MAC to
each encryption and every encrypt/decrypt consumes one nonce.  The model
cipher adds a keystream byte to each plaintext byte and appends a 16-byte
tag depending on key, nonce and ciphertext; decryption verifies the tag,
strips it and subtracts the keystream. -/

/-- Keystream byte `i` for a given key and nonce. -/
def keystream (key nonce i : Nat) : Nat := (key + 131 * nonce + 17 * i + 3) % 256

/-- Encrypt a byte list with the keystream, starting at stream position `i`. -/
def encBytes (key nonce : Nat) : Nat → List Nat → List Nat
  | _, [] => []
  | i, b :: rest => (b + keystream key nonce i) % 256 :: encBytes key nonce (i + 1) rest

/-- Decrypt a byte list with the keystream, starting at stream position `i`. -/
def decBytes (key nonce : Nat) : Nat → List Nat → List Nat
  | _, [] => []
  | i, b :: rest => (b + 256 - keystream key nonce i) % 256 :: decBytes key nonce (i + 1) rest

/-- The 16-byte authentication tag over a ciphertext. -/
def macTag (key nonce : Nat) (c : List Nat) : List Nat :=
  (List.range MAC_SIZE).map
    (fun j => (key + 257 * nonce + 31 * c.length
                + c.foldl (fun a b => (a * 131 + b + 1) % 65536) 7 + j) % 256)

/-- AEAD encryption: ciphertext body followed by the 16-byte tag. -/
def cipherEncrypt (key nonce : Nat) (p : List Nat) : List Nat :=
  let c := encBytes key nonce 0 p
  c ++ macTag key nonce c

/-- AEAD decryption: verify and strip the trailing 16-byte tag, then decrypt;
`none` on a too-short input or a tag mismatch. -/
def cipherDecrypt (key nonce : Nat) (msg : List Nat) : Option (List Nat) :=
  if MAC_SIZE ≤ msg.length then
    let c := msg.take (msg.length - MAC_SIZE)
    let tag := msg.drop (msg.length - MAC_SIZE)
    if tag = macTag key nonce c then some (decBytes key nonce 0 c) else none
  else none

/-! ## Model Diffie-Hellman group and key schedule

Modelled from the spec: the engine's Curve25519 DH and the Noise key
schedule (chaining-key mixing) are external; the model uses exponentiation
in a small modular group and an arbitrary executable mixing function. -/

/-- Modulus of the model DH group. -/
def dhP : Nat := 997

/-- Generator of the model DH group. -/
def dhG : Nat := 5

/-- Public key of a secret key. -/
def pubOf (sk : Nat) : Nat := dhG ^ sk % dhP

/-- Shared secret between a local secret key and a remote public key. -/
def dh (sk pk : Nat) : Nat := pk ^ sk % dhP

/-- Mix a DH output into the chaining key. -/
def mixKey (ck x : Nat) : Nat := (ck * 1009 + x * 31 + 11) % 65536

/-- Initial chaining key (model hash of the protocol name
`Noise_KK_25519_ChaChaPoly_SHA256`). -/
def ck0 : Nat := 41

/-! ## Fixed-width big-endian byte encoding of public keys -/

/-- Fixed-width `w`-byte big-endian encoding of a natural number. -/
def natToBytesBE : Nat → Nat → List Nat
  | 0, _ => []
  | w + 1, n => natToBytesBE w (n / 256) ++ [n % 256]

/-- Big-endian byte decoding. -/
def bytesToNatBE (l : List Nat) : Nat := l.foldl (fun a b => a * 256 + b) 0

/-! ## Buffers

Rust writes handshake and transport payloads into fixed-size zeroed
buffers; `padTo n l` is such a buffer of size `n` holding `l` at the
front. -/

/-- A zero-initialised buffer of size `n` with `l` written at the front. -/
def padTo (n : Nat) (l : List Nat) : List Nat := l ++ List.replicate (n - l.length) 0

/-! ## Cipher states and transport state (model of snow's TransportState) -/

/-- One direction of a transport-mode session: symmetric key plus the
monotonically increasing nonce counter. -/
structure CipherState where
  key : Nat
  nonce : Nat
deriving DecidableEq

/-- Transport-mode encryption: encrypt with the current nonce, advance it. -/
def stWrite (cs : CipherState) (p : List Nat) : List Nat × CipherState :=
  (cipherEncrypt cs.key cs.nonce p, { cs with nonce := cs.nonce + 1 })

/-- Transport-mode decryption: decrypt with the current nonce; the nonce is
advanced only on success. -/
def stRead (cs : CipherState) (msg : List Nat) : Option (List Nat × CipherState) :=
  (cipherDecrypt cs.key cs.nonce msg).map (fun p => (p, { cs with nonce := cs.nonce + 1 }))

/-- Model of snow's `TransportState`: one cipher state per direction plus the
remote static public key learned during the handshake (snow's
`get_remote_static` returns an `Option`). -/
structure TransportState where
  send : CipherState
  recv : CipherState
  remote_static : Option Nat
deriving DecidableEq

/-! ## Model handshake state (snow's HandshakeState for the KK pattern)

Modelled from the spec: KK is a two-message pattern; message one carries the
initiator's ephemeral public key and a payload encrypted under the chaining
key after the `es` and `ss` DH mixes, message two carries the responder's
ephemeral public key and a payload encrypted after the `ee` and `se`
mixes.  `step` counts the processed messages; the handshake is complete at
`step = 2`. -/

/-- Model of snow's `HandshakeState`, specialised to the KK pattern. -/
structure HandshakeState where
  isInit : Bool
  localStatic : Nat
  remoteStatic : Nat
  localEph : Nat
  remoteEph : Nat
  ck : Nat
  step : Nat
deriving DecidableEq

/-- Source `Builder::build_initiator` with the local secret, the declared remote
static public key and the (model) ephemeral secret. -/
def buildInitiator (sk rpk eph : Nat) : HandshakeState :=
  ⟨true, sk, rpk, eph, 0, ck0, 0⟩

/-- Source `Builder::build_responder` with the local secret, the candidate remote
static public key and the (model) ephemeral secret. -/
def buildResponder (sk rpk eph : Nat) : HandshakeState :=
  ⟨false, sk, rpk, eph, 0, ck0, 0⟩

/-- Source `HandshakeState::write_message`: produce the next handshake message with
the given payload.  Only the initiator writes message one (step 0) and only
the responder writes message two (step 1); anything else is a misuse the
engine rejects. -/
def hsWriteMessage (st : HandshakeState) (payload : List Nat) :
    Except NoiseError (HandshakeState × List Nat) :=
  if st.isInit = true ∧ st.step = 0 then
    let ck1 := mixKey st.ck (dh st.localEph st.remoteStatic)
    let ck2 := mixKey ck1 (dh st.localStatic st.remoteStatic)
    .ok ({ st with ck := ck2, step := 1 },
         natToBytesBE KEY_SIZE (pubOf st.localEph) ++ cipherEncrypt ck2 0 payload)
  else if st.isInit = false ∧ st.step = 1 then
    let ck3 := mixKey st.ck (dh st.localEph st.remoteEph)
    let ck4 := mixKey ck3 (dh st.localEph st.remoteStatic)
    .ok ({ st with ck := ck4, step := 2 },
         natToBytesBE KEY_SIZE (pubOf st.localEph) ++ cipherEncrypt ck4 0 payload)
  else .error .snowError

/-- Source `HandshakeState::read_message`: consume the next handshake message,
returning the decrypted payload.  Only the responder reads message one
(step 0) and only the initiator reads message two (step 1). -/
def hsReadMessage (st : HandshakeState) (msg : List Nat) :
    Except NoiseError (HandshakeState × List Nat) :=
  if KEY_SIZE + MAC_SIZE ≤ msg.length then
    let ePub := bytesToNatBE (msg.take KEY_SIZE)
    if st.isInit = false ∧ st.step = 0 then
      let ck1 := mixKey st.ck (dh st.localStatic ePub)
      let ck2 := mixKey ck1 (dh st.localStatic st.remoteStatic)
      match cipherDecrypt ck2 0 (msg.drop KEY_SIZE) with
      | none => .error .snowError
      | some payload =>
        .ok ({ st with ck := ck2, remoteEph := ePub, step := 1 }, payload)
    else if st.isInit = true ∧ st.step = 1 then
      let ck3 := mixKey st.ck (dh st.localEph ePub)
      let ck4 := mixKey ck3 (dh st.localStatic ePub)
      match cipherDecrypt ck4 0 (msg.drop KEY_SIZE) with
      | none => .error .snowError
      | some payload =>
        .ok ({ st with ck := ck4, remoteEph := ePub, step := 2 }, payload)
    else .error .snowError
  else .error .snowError

/-- Source `HandshakeState::into_transport_mode`: fails unless both handshake
messages have been processed; splits the chaining key into one session key
per direction and records the peer's static key. -/
def hsIntoTransportMode (st : HandshakeState) : Except NoiseError TransportState :=
  if st.step = 2 then
    .ok { send := ⟨mixKey st.ck (if st.isInit then 1 else 2), 0⟩,
          recv := ⟨mixKey st.ck (if st.isInit then 2 else 1), 0⟩,
          remote_static := some st.remoteStatic }
  else .error .snowError

/-! ## Source embedding: src/noise.rs -/

/-- Returns `true` exactly on `Err`; used to speak about engine call outcomes. -/
def isErr {ε α : Type} : Except ε α → Bool
  | .error _ => true
  | .ok _ => false

/-- The slice of the engine the Act One responder uses: building a responder
instance bound to a candidate key, and reading a handshake message with it.
The source's responder loop is engine-agnostic, so it is embedded relative
to this interface and instantiated with the model engine below. -/
structure Engine (S : Type) where
  build : Nat → Nat → Except NoiseError S
  readMsg : S → List Nat → Except NoiseError (S × List Nat)

/-- The candidate loop of `KKHandshakeActOne::responder`: for each candidate
public key, build a responder engine instance (a build error propagates via
`?`), try to read the incoming message into a zeroed `KK_MSG_1_SIZE` buffer
(a read error skips to the next candidate), then require the buffer to start
with the protocol tag (a mismatch fails immediately); an exhausted list
yields `MissingStaticKey`. -/
def responderGen {S : Type} (E : Engine S) (sk : Nat) :
    List Nat → List Nat → Except NoiseError S
  | [], _ => .error .missingStaticKey
  | pk :: rest, message =>
    match E.build sk pk with
    | .error e => .error e
    | .ok state =>
      match E.readMsg state message with
      | .error _ => responderGen E sk rest message
      | .ok (state', payload) =>
        let msgBuf := padTo KK_MSG_1_SIZE payload
        if msgBuf.take HANDSHAKE_MESSAGE.length = HANDSHAKE_MESSAGE then .ok state'
        else .error .badHandshake

/-- First round of the KK handshake. -/
structure KKHandshakeActOne where
  state : HandshakeState
deriving DecidableEq

/-- Final round of the KK handshake. -/
structure KKHandshakeActTwo where
  state : HandshakeState
deriving DecidableEq

/-- The model engine: building a responder instance pairs the local secret
and the candidate key with the given ephemeral secret (snow draws the
ephemeral internally; the model takes it as a parameter), and reading is the
model handshake read. -/
def modelEngine (eph : Nat) : Engine HandshakeState :=
  { build := fun sk pk => .ok (buildResponder sk pk eph),
    readMsg := hsReadMessage }

/-- Source `KKHandshakeActOne::initiator`: build the initiator state and write the
protocol tag as the first message into a `KK_MSG_1_SIZE` buffer. -/
def KKHandshakeActOne.initiator (my_privkey their_pubkey eph : Nat) :
    Except NoiseError (KKHandshakeActOne × List Nat) :=
  match hsWriteMessage (buildInitiator my_privkey their_pubkey eph) HANDSHAKE_MESSAGE with
  | .error e => .error e
  | .ok (state, out) =>
    if out.length ≤ KK_MSG_1_SIZE then .ok (⟨state⟩, padTo KK_MSG_1_SIZE out)
    else .error .snowError

/-- Source `KKHandshakeActOne::responder`: the candidate loop instantiated with the
model engine. -/
def KKHandshakeActOne.responder (my_privkey eph : Nat) (their_possible_pubkeys : List Nat)
    (message : List Nat) : Except NoiseError KKHandshakeActOne :=
  (responderGen (modelEngine eph) my_privkey their_possible_pubkeys message).map
    (fun st => ⟨st⟩)

/-- Source `KKHandshakeActTwo::initiator`: read and validate the second message;
its payload is ignored. -/
def KKHandshakeActTwo.initiator (handshake : KKHandshakeActOne) (message : List Nat) :
    Except NoiseError KKHandshakeActTwo :=
  match hsReadMessage handshake.state message with
  | .error e => .error e
  | .ok (state, _) => .ok ⟨state⟩

/-- Source `KKHandshakeActTwo::responder`: write the empty-payload second message
into a `KK_MSG_2_SIZE` buffer. -/
def KKHandshakeActTwo.responder (handshake : KKHandshakeActOne) :
    Except NoiseError (KKHandshakeActTwo × List Nat) :=
  match hsWriteMessage handshake.state [] with
  | .error e => .error e
  | .ok (state, out) =>
    if out.length ≤ KK_MSG_2_SIZE then .ok (⟨state⟩, padTo KK_MSG_2_SIZE out)
    else .error .snowError

/-- A wrapper over the engine's transport state for a KK Noise channel. -/
structure KKChannel where
  transport_state : TransportState
deriving DecidableEq

/-- Length of the wire message encrypting a plaintext of the given size:
encrypted length field with its MAC, then message with its MAC. -/
def encrypted_msg_size (plaintext_size : Nat) : Nat :=
  NOISE_MESSAGE_HEADER_SIZE + plaintext_size + MAC_SIZE

/-- Source `KKChannel::from_handshake`: move the completed handshake into transport
mode. -/
def KKChannel.from_handshake (state : KKHandshakeActTwo) : Except NoiseError KKChannel :=
  (hsIntoTransportMode state.state).map (fun ts => ⟨ts⟩)

/-- Big-endian bytes of a `u16` value (`u16::to_be_bytes`). -/
def toBE2 (n : Nat) : List Nat := [n / 256 % 256, n % 256]

/-- Source `KKChannel::encrypt_message`: reject a plaintext longer than
`NOISE_PLAINTEXT_MAX_SIZE`; otherwise encrypt the 2-byte big-endian length
of the encrypted body (`MAC_SIZE + len`, a `u16`) into the first
`NOISE_MESSAGE_HEADER_SIZE` bytes of the output, then encrypt the message
into the rest.  Returns the new channel alongside the result, mirroring
`&mut self`. -/
def KKChannel.encrypt_message (ch : KKChannel) (message : List Nat) :
    Except NoiseError (List Nat) × KKChannel :=
  if message.length > NOISE_PLAINTEXT_MAX_SIZE then (.error .invalidPlaintext, ch)
  else
    let message_len := (MAC_SIZE + message.length) % 65536
    let (hdr, cs1) := stWrite ch.transport_state.send (toBE2 message_len)
    let (body, cs2) := stWrite cs1 message
    (.ok (hdr ++ body), ⟨{ ch.transport_state with send := cs2 }⟩)

/-- Source `KKChannel::decrypt_header`: decrypt the 18-byte header into a zeroed
`NOISE_MESSAGE_HEADER_SIZE` buffer and read the leading 2-byte big-endian
length (`u16::from_be_bytes`). -/
def KKChannel.decrypt_header (ch : KKChannel) (header : List Nat) :
    Except NoiseError Nat × KKChannel :=
  match stRead ch.transport_state.recv header with
  | none => (.error .snowError, ch)
  | some (payload, cs') =>
    let buf := padTo NOISE_MESSAGE_HEADER_SIZE payload
    let lenBE := buf.take LENGTH_PREFIX_SIZE
    (.ok (256 * lenBE.headD 0 + lenBE.getD 1 0), ⟨{ ch.transport_state with recv := cs' }⟩)

/-- Source `KKChannel::decrypt_message`: reject inputs above the absolute maximum
message size or below the MAC size before any decryption, else decrypt into
a buffer of the input's length and truncate away the trailing MAC. -/
def KKChannel.decrypt_message (ch : KKChannel) (message : List Nat) :
    Except NoiseError (List Nat) × KKChannel :=
  if message.length > NOISE_MESSAGE_MAX_SIZE then (.error .invalidCiphertext, ch)
  else if message.length < MAC_SIZE then (.error .invalidCiphertext, ch)
  else
    match stRead ch.transport_state.recv message with
    | none => (.error .snowError, ch)
    | some (payload, cs') =>
      let plaintext := padTo message.length payload
      (.ok (plaintext.take (message.length - MAC_SIZE)),
       ⟨{ ch.transport_state with recv := cs' }⟩)

/-- Source `KKChannel::remote_static`: the peer's static public key recorded by the
engine.  The source unwraps the engine's `Option` with `expect`, aborting
the program if it is absent; `none` here therefore marks the abort path,
never a returned error. -/
def KKChannel.remote_static (ch : KKChannel) : Option Nat :=
  ch.transport_state.remote_static

/-! ## Source embedding: src/transport.rs

The TCP stream is embedded as the list of bytes remaining to read plus a
sink list of bytes written so far. -/

/-- Wrapper type of a stream and a channel; the stream itself is threaded
explicitly through the operations. -/
structure KKTransport where
  channel : KKChannel
deriving DecidableEq

/-- Source `Read::read_exact`: take exactly `n` bytes off the stream or fail with
`UnexpectedEof`. -/
def readExact (n : Nat) (s : List Nat) : Except Error (List Nat × List Nat) :=
  if n ≤ s.length then .ok (s.take n, s.drop n)
  else .error (.transport .unexpectedEof)

/-- The tail of `KKTransport::accept` after the first message has been read:
responder side of Act One over all candidates, Act Two, channel
construction, and the write of the second message to the peer. -/
def acceptTail (my_noise_privkey eph : Nat) (their_possible_pubkeys : List Nat)
    (msg_1 s1 sink : List Nat) : Except Error (KKTransport × List Nat × List Nat) :=
  match KKHandshakeActOne.responder my_noise_privkey eph their_possible_pubkeys msg_1 with
  | .error e => .error (.noise e)
  | .ok serv_act_1 =>
    match KKHandshakeActTwo.responder serv_act_1 with
    | .error e => .error (.noise e)
    | .ok (serv_act_2, msg_2) =>
      match KKChannel.from_handshake serv_act_2 with
      | .error e => .error (.noise e)
      | .ok channel => .ok (⟨channel⟩, s1, sink ++ msg_2)

/-- Source `KKTransport::accept`: read exactly `KK_MSG_1_SIZE` bytes for the first
message, then run the rest of the responder handshake.  Returns the
transport together with the unread remainder of the stream and the write
sink. -/
def KKTransport.accept (my_noise_privkey eph : Nat) (their_possible_pubkeys : List Nat)
    (s sink : List Nat) : Except Error (KKTransport × List Nat × List Nat) :=
  match readExact KK_MSG_1_SIZE s with
  | .error e => .error e
  | .ok (msg_1, s1) => acceptTail my_noise_privkey eph their_possible_pubkeys msg_1 s1 sink

/-- The decryption pipeline of `KKTransport::_read` applied to a received
ciphertext: split off the 18-byte header, decrypt it, then decrypt the
announced number of body bytes. -/
def decryptFramed (ch : KKChannel) (c : List Nat) :
    Except NoiseError (List Nat) × KKChannel :=
  if NOISE_MESSAGE_HEADER_SIZE ≤ c.length then
    match ch.decrypt_header (c.take NOISE_MESSAGE_HEADER_SIZE) with
    | (.error e, ch') => (.error e, ch')
    | (.ok msg_len, ch') =>
      ch'.decrypt_message ((c.drop NOISE_MESSAGE_HEADER_SIZE).take msg_len)
  else (.error .invalidCiphertext, ch)

/-- One outcome of a `self._read()` attempt inside `KKTransport::read`. -/
inductive ReadOutcome where
  | ok (msg : List Nat)
  | err (e : Error)
deriving DecidableEq

/-- The retry loop of `KKTransport::read` over a trace of `_read` outcomes.
Mirrors the source exactly: a success returns; any error with
`attempts == 4` returns; a `Transport` error of kind `UnexpectedEof` or
`Interrupted` returns; any other `Transport` error sleeps and `continue`s,
skipping the `attempts += 1` at the bottom of the loop; every remaining
error (in particular a crypto error) falls through the match, so the loop
runs again after `attempts += 1`.  `none` means the trace was exhausted
with the loop still running. -/
def kkReadLoop : List ReadOutcome → Nat → Option (Except Error (List Nat))
  | [], _ => none
  | o :: rest, attempts =>
    match o with
    | .ok msg => some (.ok msg)
    | .err e =>
      if attempts = 4 then some (.error e)
      else
        match e with
        | .transport k =>
          if k = .unexpectedEof ∨ k = .interrupted then some (.error (.transport k))
          else kkReadLoop rest attempts
        | .noise _ => kkReadLoop rest (attempts + 1)

/-- One outcome of a `stream.write_all` attempt inside `KKTransport::write`:
`none` is a successful write, `some k` a stream error of kind `k`. -/
abbrev WriteOutcome := Option IOErrorKind

/-- The retry loop of `KKTransport::write` over a trace of `write_all`
outcomes: on success the whole ciphertext lands in the sink; on an error the
attempt counter is bumped and, at 5 attempts, the last error is returned,
otherwise the loop sleeps one second and retries.  The result carries the
sink and the number of sleeps performed; `none` means the trace was
exhausted. -/
def writeAllLoop (c sink : List Nat) :
    List WriteOutcome → Nat → Nat → Option (Except Error Unit × List Nat × Nat)
  | [], _, _ => none
  | o :: rest, attempts, sleeps =>
    match o with
    | none => some (.ok (), sink ++ c, sleeps)
    | some k =>
      if attempts + 1 = 5 then some (.error (.transport k), sink, sleeps)
      else writeAllLoop c sink rest (attempts + 1) (sleeps + 1)

/-- Source `KKTransport::write`: encrypt through the channel (an encryption error
is returned at once, consuming no write attempts), then drive the
`write_all` retry loop on the ciphertext. -/
def KKTransport.write (ch : KKChannel) (msg : List Nat) (outcomes : List WriteOutcome)
    (sink : List Nat) : Option (Except Error Unit × KKChannel × List Nat × Nat) :=
  match KKChannel.encrypt_message ch msg with
  | (.error e, ch') => some (.error (.noise e), ch', sink, 0)
  | (.ok c, ch') =>
    (writeAllLoop c sink outcomes 0 0).map (fun r => (r.1, ch', r.2.1, r.2.2))

/-! ## The bidirectional handshake of the tests and spec section 8 -/

/-- Run the complete KK handshake between an initiator (static secret `skI`,
ephemeral `eI`) and a responder (static secret `skR`, ephemeral `eR`) whose
candidate list is exactly the initiator's public key, returning the two
channels (initiator's first). -/
def fullHandshake (skI skR eI eR : Nat) : Except NoiseError (KKChannel × KKChannel) :=
  match KKHandshakeActOne.initiator skI (pubOf skR) eI with
  | .error e => .error e
  | .ok (cli_act_1, msg_1) =>
    match KKHandshakeActOne.responder skR eR [pubOf skI] msg_1 with
    | .error e => .error e
    | .ok serv_act_1 =>
      match KKHandshakeActTwo.responder serv_act_1 with
      | .error e => .error e
      | .ok (serv_act_2, msg_2) =>
        match KKChannel.from_handshake serv_act_2 with
        | .error e => .error e
        | .ok server_channel =>
          match KKHandshakeActTwo.initiator cli_act_1 msg_2 with
          | .error e => .error e
          | .ok cli_act_2 =>
            (KKChannel.from_handshake cli_act_2).map (fun cc => (cc, server_channel))

/-! ## Stage values of a successful KK handshake

Abbreviations for the chaining keys, wire messages and channels produced by
a handshake between initiator `(skI, eI)` and responder `(skR, eR)`; the
stage lemmas below prove that the source functions produce exactly these. -/

/-- Chaining key after message one (`es` and `ss` mixes). -/
def K2v (skI skR eI : Nat) : Nat :=
  mixKey (mixKey ck0 (dh eI (pubOf skR))) (dh skI (pubOf skR))

/-- Chaining key after message two (`ee` and `se` mixes). -/
def K4v (skI skR eI eR : Nat) : Nat :=
  mixKey (mixKey (K2v skI skR eI) (dh eR (pubOf eI))) (dh eR (pubOf skI))

/-- The bytes of the first handshake message. -/
def msg1Bytes (skI skR eI : Nat) : List Nat :=
  natToBytesBE KEY_SIZE (pubOf eI) ++ cipherEncrypt (K2v skI skR eI) 0 HANDSHAKE_MESSAGE

/-- The bytes of the second handshake message. -/
def msg2Bytes (skI skR eI eR : Nat) : List Nat :=
  natToBytesBE KEY_SIZE (pubOf eR) ++ cipherEncrypt (K4v skI skR eI eR) 0 []

/-- The initiator's channel after the handshake. -/
def chanIv (skI skR eI eR : Nat) : KKChannel :=
  ⟨⟨⟨mixKey (K4v skI skR eI eR) 1, 0⟩, ⟨mixKey (K4v skI skR eI eR) 2, 0⟩, some (pubOf skR)⟩⟩

/-- The responder's channel after the handshake. -/
def chanRv (skI skR eI eR : Nat) : KKChannel :=
  ⟨⟨⟨mixKey (K4v skI skR eI eR) 2, 0⟩, ⟨mixKey (K4v skI skR eI eR) 1, 0⟩, some (pubOf skI)⟩⟩

/-- Run a full handshake, encrypt `m` on the initiator channel and decrypt
the resulting wire bytes on the responder channel; `none` if any stage
fails. -/
def roundTripRun (skI skR eI eR : Nat) (m : List Nat) : Option (List Nat) :=
  match fullHandshake skI skR eI eR with
  | .error _ => none
  | .ok (chI, chR) =>
    match chI.encrypt_message m with
    | (.error _, _) => none
    | (.ok c, _) =>
      match decryptFramed chR c with
      | (.ok p, _) => some p
      | (.error _, _) => none

/-! ## Small concrete engines used to instantiate general theorems -/

/-- A toy engine over `Nat` states: building pairs the keys additively; an
even state fails to read, an odd state reads successfully, returning the
protocol tag exactly for state `3`. -/
def toyEngine : Engine Nat :=
  { build := fun sk pk => .ok (sk + pk),
    readMsg := fun st _ =>
      if st % 2 = 0 then .error .snowError
      else .ok (st, if st = 3 then HANDSHAKE_MESSAGE else [1]) }

/-- A toy engine whose builder always fails. -/
def failEngine : Engine Nat :=
  { build := fun _ _ => .error .snowError,
    readMsg := fun st _ => .ok (st, []) }

/-! ## Lemmas about the model primitives -/

/-! ## Basic lemmas about the model cipher -/

theorem encBytes_length (key nonce : Nat) :
    ∀ (i : Nat) (p : List Nat), (encBytes key nonce i p).length = p.length := by
  intro i p
  induction p generalizing i with
  | nil => rfl
  | cons b rest ih => simp [encBytes, ih]

theorem macTag_length (key nonce : Nat) (c : List Nat) :
    (macTag key nonce c).length = MAC_SIZE := by
  simp [macTag]

theorem cipherEncrypt_length (key nonce : Nat) (p : List Nat) :
    (cipherEncrypt key nonce p).length = p.length + MAC_SIZE := by
  simp [cipherEncrypt, encBytes_length, macTag_length]

theorem keystream_lt (key nonce i : Nat) : keystream key nonce i < 256 := by
  exact Nat.mod_lt _ (by decide)

theorem decBytes_encBytes (key nonce : Nat) :
    ∀ (i : Nat) (p : List Nat), (∀ b ∈ p, b < 256) →
      decBytes key nonce i (encBytes key nonce i p) = p := by
  intro i p
  induction p generalizing i with
  | nil => intro _; rfl
  | cons b rest ih =>
    intro h
    have hb : b < 256 := h b (by simp)
    have hk : keystream key nonce i < 256 := keystream_lt key nonce i
    have hbyte : ((b + keystream key nonce i) % 256 + 256 - keystream key nonce i) % 256 = b := by
      have h1 : (b + keystream key nonce i) % 256 + 256 - keystream key nonce i
          = (b + keystream key nonce i) % 256 + (256 - keystream key nonce i) := by omega
      rw [h1, Nat.mod_add_mod]
      have h2 : b + keystream key nonce i + (256 - keystream key nonce i) = b + 256 := by omega
      rw [h2]
      simp [Nat.mod_eq_of_lt hb]
    simp only [encBytes, decBytes, hbyte]
    exact congrArg (b :: ·) (ih (i + 1) (fun x hx => h x (by simp [hx])))

theorem cipherDecrypt_cipherEncrypt (key nonce : Nat) (p : List Nat)
    (h : ∀ b ∈ p, b < 256) :
    cipherDecrypt key nonce (cipherEncrypt key nonce p) = some p := by
  have hlen := encBytes_length key nonce 0 p
  have hmac := macTag_length key nonce (encBytes key nonce 0 p)
  simp only [cipherDecrypt, cipherEncrypt]
  have hLen : (encBytes key nonce 0 p ++ macTag key nonce (encBytes key nonce 0 p)).length
      = p.length + MAC_SIZE := by simp [hlen, hmac]
  rw [hLen]
  have h16 : MAC_SIZE ≤ p.length + MAC_SIZE := by omega
  rw [if_pos h16]
  have hsub : p.length + MAC_SIZE - MAC_SIZE = p.length := by omega
  rw [hsub]
  have htake : (encBytes key nonce 0 p ++ macTag key nonce (encBytes key nonce 0 p)).take p.length
      = encBytes key nonce 0 p := by
    rw [← hlen]
    exact List.take_left _ _
  have hdrop : (encBytes key nonce 0 p ++ macTag key nonce (encBytes key nonce 0 p)).drop p.length
      = macTag key nonce (encBytes key nonce 0 p) := by
    rw [← hlen]
    exact List.drop_left _ _
  rw [htake, hdrop, if_pos rfl, decBytes_encBytes key nonce 0 p h]

theorem dh_comm (a b : Nat) : dh a (pubOf b) = dh b (pubOf a) := by
  simp only [dh, pubOf]
  rw [← Nat.pow_mod, ← Nat.pow_mod, ← pow_mul, ← pow_mul, Nat.mul_comm]

theorem natToBytesBE_length (w n : Nat) : (natToBytesBE w n).length = w := by
  induction w generalizing n with
  | zero => rfl
  | succ w ih => simp [natToBytesBE, ih]

theorem bytesToNatBE_append_singleton (l : List Nat) (b : Nat) :
    bytesToNatBE (l ++ [b]) = bytesToNatBE l * 256 + b := by
  simp [bytesToNatBE, List.foldl_append]

theorem bytesToNatBE_natToBytesBE (w n : Nat) :
    bytesToNatBE (natToBytesBE w n) = n % 256 ^ w := by
  induction w generalizing n with
  | zero => simp [natToBytesBE, bytesToNatBE, Nat.mod_one]
  | succ w ih =>
    rw [natToBytesBE, bytesToNatBE_append_singleton, ih]
    have h : 256 ^ (w + 1) = 256 * 256 ^ w := by ring
    rw [h, Nat.mod_mul]
    ring

theorem bytesToNatBE_natToBytesBE_of_lt {w n : Nat} (h : n < 256 ^ w) :
    bytesToNatBE (natToBytesBE w n) = n := by
  rw [bytesToNatBE_natToBytesBE, Nat.mod_eq_of_lt h]

theorem pubOf_lt (sk : Nat) : pubOf sk < 256 ^ KEY_SIZE := by
  have h1 : pubOf sk < dhP := Nat.mod_lt _ (by decide)
  have h2 : dhP < 256 ^ 2 := by decide
  have h3 : (256 : Nat) ^ 2 ≤ 256 ^ KEY_SIZE :=
    Nat.pow_le_pow_right (by decide) (by decide)
  omega

theorem padTo_length {n : Nat} {l : List Nat} (h : l.length ≤ n) :
    (padTo n l).length = n := by
  simp [padTo]
  omega

theorem padTo_eq_self {n : Nat} {l : List Nat} (h : l.length = n) :
    padTo n l = l := by
  simp [padTo, h]

/-! ## Byte-level facts about the protocol tag and wire layout -/

theorem HANDSHAKE_MESSAGE_length : HANDSHAKE_MESSAGE.length = 19 := by decide

theorem HANDSHAKE_MESSAGE_wf : ∀ b ∈ HANDSHAKE_MESSAGE, b < 256 := by decide

theorem toBE2_length (n : Nat) : (toBE2 n).length = LENGTH_PREFIX_SIZE := rfl

theorem toBE2_wf (n : Nat) : ∀ b ∈ toBE2 n, b < 256 := by
  intro b hb
  simp only [toBE2, List.mem_cons, List.mem_singleton] at hb
  rcases hb with h | h | h
  · subst h; exact Nat.mod_lt _ (by decide)
  · subst h; exact Nat.mod_lt _ (by decide)
  · cases h

theorem take_key (x : Nat) (c : List Nat) :
    (natToBytesBE KEY_SIZE x ++ c).take KEY_SIZE = natToBytesBE KEY_SIZE x :=
  List.take_left' (natToBytesBE_length _ _)

theorem drop_key (x : Nat) (c : List Nat) :
    (natToBytesBE KEY_SIZE x ++ c).drop KEY_SIZE = c :=
  List.drop_left' (natToBytesBE_length _ _)

theorem parse_pub (x : Nat) (c : List Nat) :
    bytesToNatBE ((natToBytesBE KEY_SIZE (pubOf x) ++ c).take KEY_SIZE) = pubOf x := by
  rw [take_key, bytesToNatBE_natToBytesBE_of_lt (pubOf_lt x)]

theorem msg1Bytes_length (skI skR eI : Nat) : (msg1Bytes skI skR eI).length = KK_MSG_1_SIZE := by
  simp [msg1Bytes, natToBytesBE_length, cipherEncrypt_length, KK_MSG_1_SIZE]
  omega

theorem msg2Bytes_length (skI skR eI eR : Nat) :
    (msg2Bytes skI skR eI eR).length = KK_MSG_2_SIZE := by
  simp [msg2Bytes, natToBytesBE_length, cipherEncrypt_length, KK_MSG_2_SIZE, KEY_SIZE, MAC_SIZE]

/-! ## Stage lemmas: the handshake functions on matching keys -/

theorem initiator_run (skI skR eI : Nat) :
    KKHandshakeActOne.initiator skI (pubOf skR) eI
      = .ok (⟨⟨true, skI, pubOf skR, eI, 0, K2v skI skR eI, 1⟩⟩, msg1Bytes skI skR eI) := by
  have h := msg1Bytes_length skI skR eI
  simp only [msg1Bytes, K2v] at h ⊢
  simp only [KKHandshakeActOne.initiator, hsWriteMessage, buildInitiator, and_self, if_true,
    if_pos (le_of_eq h), padTo_eq_self h]

theorem tag_check_eq : (padTo KK_MSG_1_SIZE HANDSHAKE_MESSAGE).take HANDSHAKE_MESSAGE.length
    = HANDSHAKE_MESSAGE := by
  simp only [padTo]
  exact List.take_left _ _

theorem parse_pub_of_lt {p : Nat} (c : List Nat) (hp : p < 256 ^ KEY_SIZE) :
    bytesToNatBE ((natToBytesBE KEY_SIZE p ++ c).take KEY_SIZE) = p := by
  rw [List.take_left' (natToBytesBE_length _ _), bytesToNatBE_natToBytesBE_of_lt hp]

theorem hsReadMessage_msg1 (skR rpk eph p k : Nat) (payload : List Nat)
    (hp : p < 256 ^ KEY_SIZE) (hwf : ∀ b ∈ payload, b < 256)
    (hk : mixKey (mixKey ck0 (dh skR p)) (dh skR rpk) = k) :
    hsReadMessage (buildResponder skR rpk eph)
        (natToBytesBE KEY_SIZE p ++ cipherEncrypt k 0 payload)
      = .ok (⟨false, skR, rpk, eph, p, k, 1⟩, payload) := by
  have hlen : KEY_SIZE + MAC_SIZE
      ≤ (natToBytesBE KEY_SIZE p ++ cipherEncrypt k 0 payload).length := by
    simp [natToBytesBE_length, cipherEncrypt_length]
  unfold hsReadMessage
  rw [if_pos hlen]
  rw [List.take_left' (natToBytesBE_length _ _)]
  rw [bytesToNatBE_natToBytesBE_of_lt hp]
  rw [List.drop_left' (natToBytesBE_length _ _)]
  simp only [buildResponder, and_self, if_true, eq_self_iff_true]
  rw [hk]
  rw [cipherDecrypt_cipherEncrypt _ _ _ hwf]

theorem hsReadMessage_msg2 (skI rpk eI re ck p k : Nat) (payload : List Nat)
    (hp : p < 256 ^ KEY_SIZE) (hwf : ∀ b ∈ payload, b < 256)
    (hk : mixKey (mixKey ck (dh eI p)) (dh skI p) = k) :
    hsReadMessage ⟨true, skI, rpk, eI, re, ck, 1⟩
        (natToBytesBE KEY_SIZE p ++ cipherEncrypt k 0 payload)
      = .ok (⟨true, skI, rpk, eI, p, k, 2⟩, payload) := by
  have hlen : KEY_SIZE + MAC_SIZE
      ≤ (natToBytesBE KEY_SIZE p ++ cipherEncrypt k 0 payload).length := by
    simp [natToBytesBE_length, cipherEncrypt_length]
  unfold hsReadMessage
  rw [if_pos hlen]
  rw [List.take_left' (natToBytesBE_length _ _)]
  rw [bytesToNatBE_natToBytesBE_of_lt hp]
  rw [List.drop_left' (natToBytesBE_length _ _)]
  rw [if_neg (by simp)]
  simp only [and_self, if_true, eq_self_iff_true]
  rw [hk]
  rw [cipherDecrypt_cipherEncrypt _ _ _ hwf]

theorem read_msg1_run (skI skR eI eR : Nat) :
    hsReadMessage (buildResponder skR (pubOf skI) eR) (msg1Bytes skI skR eI)
      = .ok (⟨false, skR, pubOf skI, eR, pubOf eI, K2v skI skR eI, 1⟩, HANDSHAKE_MESSAGE) := by
  rw [msg1Bytes]
  exact hsReadMessage_msg1 skR (pubOf skI) eR (pubOf eI) (K2v skI skR eI) HANDSHAKE_MESSAGE
    (pubOf_lt eI) HANDSHAKE_MESSAGE_wf
    (by rw [K2v, dh_comm skR eI, dh_comm skR skI])

theorem read_msg2_run (skI skR eI eR : Nat) :
    hsReadMessage ⟨true, skI, pubOf skR, eI, 0, K2v skI skR eI, 1⟩ (msg2Bytes skI skR eI eR)
      = .ok (⟨true, skI, pubOf skR, eI, pubOf eR, K4v skI skR eI eR, 2⟩, []) := by
  rw [msg2Bytes]
  exact hsReadMessage_msg2 skI (pubOf skR) eI 0 (K2v skI skR eI) (pubOf eR)
    (K4v skI skR eI eR) [] (pubOf_lt eR) (by simp)
    (by rw [K4v, dh_comm eI eR, dh_comm skI eR])

theorem responder_run (skI skR eI eR : Nat) :
    KKHandshakeActOne.responder skR eR [pubOf skI] (msg1Bytes skI skR eI)
      = .ok ⟨⟨false, skR, pubOf skI, eR, pubOf eI, K2v skI skR eI, 1⟩⟩ := by
  simp only [KKHandshakeActOne.responder, responderGen, modelEngine, read_msg1_run,
    tag_check_eq, eq_self_iff_true, if_true, Except.map]

theorem act2_responder_run (skI skR eI eR : Nat) :
    KKHandshakeActTwo.responder ⟨⟨false, skR, pubOf skI, eR, pubOf eI, K2v skI skR eI, 1⟩⟩
      = .ok (⟨⟨false, skR, pubOf skI, eR, pubOf eI, K4v skI skR eI eR, 2⟩⟩,
             msg2Bytes skI skR eI eR) := by
  have h := msg2Bytes_length skI skR eI eR
  simp only [msg2Bytes, K4v] at h ⊢
  simp only [KKHandshakeActTwo.responder, hsWriteMessage]
  rw [if_neg (by simp)]
  simp only [and_self, if_true, eq_self_iff_true, if_pos (le_of_eq h), padTo_eq_self h]

theorem act2_initiator_run (skI skR eI eR : Nat) :
    KKHandshakeActTwo.initiator ⟨⟨true, skI, pubOf skR, eI, 0, K2v skI skR eI, 1⟩⟩
        (msg2Bytes skI skR eI eR)
      = .ok ⟨⟨true, skI, pubOf skR, eI, pubOf eR, K4v skI skR eI eR, 2⟩⟩ := by
  simp only [KKHandshakeActTwo.initiator, read_msg2_run]

theorem from_handshake_initiator (skI skR eI eR : Nat) :
    KKChannel.from_handshake ⟨⟨true, skI, pubOf skR, eI, pubOf eR, K4v skI skR eI eR, 2⟩⟩
      = .ok (chanIv skI skR eI eR) := by
  simp [KKChannel.from_handshake, hsIntoTransportMode, chanIv, Except.map]

theorem from_handshake_responder (skI skR eI eR : Nat) :
    KKChannel.from_handshake ⟨⟨false, skR, pubOf skI, eR, pubOf eI, K4v skI skR eI eR, 2⟩⟩
      = .ok (chanRv skI skR eI eR) := by
  simp [KKChannel.from_handshake, hsIntoTransportMode, chanRv, Except.map]

theorem fullHandshake_run (skI skR eI eR : Nat) :
    fullHandshake skI skR eI eR = .ok (chanIv skI skR eI eR, chanRv skI skR eI eR) := by
  unfold fullHandshake
  rw [initiator_run]
  dsimp only []
  rw [responder_run]
  dsimp only []
  rw [act2_responder_run]
  dsimp only []
  rw [from_handshake_responder]
  dsimp only []
  rw [act2_initiator_run]
  dsimp only []
  rw [from_handshake_initiator]
  dsimp only [Except.map]

/-! ## Channel-level lemmas -/

theorem encrypt_message_ok (ch : KKChannel) (m : List Nat)
    (h : m.length ≤ NOISE_PLAINTEXT_MAX_SIZE) :
    KKChannel.encrypt_message ch m
      = (.ok (cipherEncrypt ch.transport_state.send.key ch.transport_state.send.nonce
                (toBE2 ((MAC_SIZE + m.length) % 65536))
              ++ cipherEncrypt ch.transport_state.send.key (ch.transport_state.send.nonce + 1) m),
         ⟨{ ch.transport_state with
              send := ⟨ch.transport_state.send.key, ch.transport_state.send.nonce + 1 + 1⟩ }⟩) := by
  unfold KKChannel.encrypt_message
  rw [if_neg (by omega)]
  dsimp only [stWrite]

theorem be2_value {w : Nat} (hw : w < 65536) : 256 * (w / 256 % 256) + w % 256 = w := by
  have hdiv : w / 256 < 256 := by omega
  rw [Nat.mod_eq_of_lt hdiv]
  exact Nat.div_add_mod w 256

theorem header_take (w : Nat) :
    (padTo NOISE_MESSAGE_HEADER_SIZE (toBE2 w)).take LENGTH_PREFIX_SIZE = toBE2 w := by
  simp only [padTo]
  exact List.take_left' (toBE2_length w)

theorem decrypt_header_run (k n w : Nat) (sendB : CipherState) (rs : Option Nat)
    (hw : w < 65536) :
    KKChannel.decrypt_header ⟨⟨sendB, ⟨k, n⟩, rs⟩⟩ (cipherEncrypt k n (toBE2 w))
      = (.ok w, ⟨⟨sendB, ⟨k, n + 1⟩, rs⟩⟩) := by
  unfold KKChannel.decrypt_header stRead
  rw [cipherDecrypt_cipherEncrypt _ _ _ (toBE2_wf w)]
  dsimp only [Option.map]
  rw [header_take]
  show (Except.ok (256 * (w / 256 % 256) + w % 256),
        (⟨⟨sendB, ⟨k, n + 1⟩, rs⟩⟩ : KKChannel)) = _
  rw [be2_value hw]

theorem decrypt_message_run (k n : Nat) (sendB : CipherState) (rs : Option Nat) (m : List Nat)
    (hwf : ∀ b ∈ m, b < 256) (hlen : m.length ≤ NOISE_PLAINTEXT_MAX_SIZE) :
    KKChannel.decrypt_message ⟨⟨sendB, ⟨k, n⟩, rs⟩⟩ (cipherEncrypt k n m)
      = (.ok m, ⟨⟨sendB, ⟨k, n + 1⟩, rs⟩⟩) := by
  have hce := cipherEncrypt_length k n m
  have hmax : NOISE_PLAINTEXT_MAX_SIZE = 65501 := rfl
  have hmsgmax : NOISE_MESSAGE_MAX_SIZE = 65535 := rfl
  have hmac : MAC_SIZE = 16 := rfl
  unfold KKChannel.decrypt_message
  rw [if_neg (by omega)]
  rw [if_neg (by omega)]
  unfold stRead
  rw [cipherDecrypt_cipherEncrypt _ _ _ hwf]
  dsimp only [Option.map]
  rw [hce, Nat.add_sub_cancel]
  simp only [padTo]
  rw [List.take_left]

theorem framed_roundtrip (k n : Nat) (sendB : CipherState) (rsB : Option Nat)
    (m : List Nat) (hwf : ∀ b ∈ m, b < 256) (hlen : m.length ≤ NOISE_PLAINTEXT_MAX_SIZE) :
    decryptFramed ⟨⟨sendB, ⟨k, n⟩, rsB⟩⟩
        (cipherEncrypt k n (toBE2 ((MAC_SIZE + m.length) % 65536))
          ++ cipherEncrypt k (n + 1) m)
      = (.ok m, ⟨⟨sendB, ⟨k, n + 1 + 1⟩, rsB⟩⟩) := by
  have hmax : NOISE_PLAINTEXT_MAX_SIZE = 65501 := rfl
  have hm16 : MAC_SIZE = 16 := rfl
  have hE1 : (cipherEncrypt k n (toBE2 ((MAC_SIZE + m.length) % 65536))).length
      = NOISE_MESSAGE_HEADER_SIZE := by
    rw [cipherEncrypt_length, toBE2_length]
    rfl
  have hw : (MAC_SIZE + m.length) % 65536 = MAC_SIZE + m.length :=
    Nat.mod_eq_of_lt (by omega)
  have hfull : NOISE_MESSAGE_HEADER_SIZE
      ≤ (cipherEncrypt k n (toBE2 ((MAC_SIZE + m.length) % 65536))
          ++ cipherEncrypt k (n + 1) m).length := by
    rw [List.length_append, hE1]
    omega
  unfold decryptFramed
  rw [if_pos hfull]
  rw [List.take_left' hE1]
  rw [decrypt_header_run k n _ sendB rsB (by omega)]
  dsimp only []
  rw [List.drop_left' hE1]
  rw [hw]
  have htake : (MAC_SIZE + m.length) = (cipherEncrypt k (n + 1) m).length := by
    rw [cipherEncrypt_length]
    omega
  rw [htake, List.take_length]
  exact decrypt_message_run k (n + 1) sendB rsB m hwf hlen

theorem encrypt_message_err (ch : KKChannel) (m : List Nat)
    (h : NOISE_PLAINTEXT_MAX_SIZE < m.length) :
    KKChannel.encrypt_message ch m = (.error .invalidPlaintext, ch) := by
  unfold KKChannel.encrypt_message
  rw [if_pos h]

theorem writeAllLoop_ok (c sink : List Nat) (rest : List WriteOutcome) :
    ∀ (errs : List WriteOutcome) (a s : Nat), (∀ o ∈ errs, o ≠ none) →
      a + errs.length ≤ 4 →
      writeAllLoop c sink (errs ++ none :: rest) a s
        = some (.ok (), sink ++ c, s + errs.length) := by
  intro errs
  induction errs with
  | nil =>
    intro a s _ _
    simp [writeAllLoop]
  | cons o rest' ih =>
    intro a s hne hle
    cases o with
    | none => exact absurd rfl (hne none (by simp))
    | some k =>
      simp only [List.cons_append, writeAllLoop, List.append_eq]
      rw [if_neg (by simp at hle; omega)]
      rw [ih (a + 1) (s + 1) (fun o ho => hne o (by simp [ho]))
        (by simp at hle ⊢; omega)]
      have : s + 1 + rest'.length = s + (rest'.length + 1) := by omega
      simp [this]

theorem writeAllLoop_exhaust (c sink : List Nat) (rest : List WriteOutcome)
    (k1 k2 k3 k4 k5 : IOErrorKind) :
    writeAllLoop c sink
        (some k1 :: some k2 :: some k3 :: some k4 :: some k5 :: rest) 0 0
      = some (.error (.transport k5), sink, 4) := by
  simp [writeAllLoop]

/-! ## Claim theorems -/

/-- C1 counterexample: the protocol tag `practical_revault_0` is 19 bytes,
not 20, so the first handshake message is 67 bytes, not 68, and a 67-byte
stream is already fully consumed by `accept`'s first read (the handshake
then proceeds, failing here only because the candidate list is empty). -/
theorem actOneMessageSize_counterexample :
    KK_MSG_1_SIZE ≠ 68 ∧ HANDSHAKE_MESSAGE.length ≠ 20
  ∧ KKTransport.accept 1 2 [] (List.replicate 67 0) []
      = .error (.noise .missingStaticKey) := by
  decide

/-- C1 (amended): the first handshake message is a fixed-size blob of
exactly `KEY_SIZE + HANDSHAKE_MESSAGE.length + MAC_SIZE = 32 + 19 + 67`
bytes, i.e. 67 bytes, and `accept` reads exactly 67 bytes from the stream
for it: a shorter stream fails with `UnexpectedEof`, and otherwise `accept`
consumes exactly the first `KK_MSG_1_SIZE` bytes as the first message and
hands the rest of the stream on. -/
theorem actOneMessageSize :
    KK_MSG_1_SIZE = 67
  ∧ HANDSHAKE_MESSAGE.length = 19
  ∧ KK_MSG_1_SIZE = KEY_SIZE + HANDSHAKE_MESSAGE.length + MAC_SIZE
  ∧ (∀ sk rpk eph hs m1, KKHandshakeActOne.initiator sk rpk eph = .ok (hs, m1) →
       m1.length = KK_MSG_1_SIZE)
  ∧ (∀ sk eph pks s sink, s.length < KK_MSG_1_SIZE →
       KKTransport.accept sk eph pks s sink = .error (.transport .unexpectedEof))
  ∧ (∀ sk eph pks s sink, KK_MSG_1_SIZE ≤ s.length →
       KKTransport.accept sk eph pks s sink
         = acceptTail sk eph pks (s.take KK_MSG_1_SIZE) (s.drop KK_MSG_1_SIZE) sink) := by
  refine ⟨by decide, by decide, rfl, ?_, ?_, ?_⟩
  · intro sk rpk eph hs m1 h
    unfold KKHandshakeActOne.initiator at h
    cases hw : hsWriteMessage (buildInitiator sk rpk eph) HANDSHAKE_MESSAGE with
    | error e => rw [hw] at h; cases h
    | ok v =>
      obtain ⟨st, out⟩ := v
      rw [hw] at h
      dsimp only [] at h
      by_cases hle : out.length ≤ KK_MSG_1_SIZE
      · rw [if_pos hle] at h
        have h2 : padTo KK_MSG_1_SIZE out = m1 := congrArg Prod.snd (Except.ok.inj h)
        rw [← h2]
        exact padTo_length hle
      · rw [if_neg hle] at h
        cases h
  · intro sk eph pks s sink h
    unfold KKTransport.accept readExact
    rw [if_neg (by omega)]
  · intro sk eph pks s sink h
    unfold KKTransport.accept readExact
    rw [if_pos h]

/-- C1 witness: the initiator's concrete first message has length
`KK_MSG_1_SIZE`; a 3-byte stream makes `accept` fail with `UnexpectedEof`;
a 70-byte stream is split after exactly `KK_MSG_1_SIZE` bytes. -/
theorem actOneMessageSize_witness :
    (msg1Bytes 3 4 5).length = KK_MSG_1_SIZE
  ∧ KKTransport.accept 1 2 [9] [1, 2, 3] [] = .error (.transport .unexpectedEof)
  ∧ KKTransport.accept 1 2 [9] (List.replicate 70 0) []
      = acceptTail 1 2 [9] ((List.replicate 70 0).take KK_MSG_1_SIZE)
          ((List.replicate 70 0).drop KK_MSG_1_SIZE) [] :=
  ⟨actOneMessageSize.2.2.2.1 3 (pubOf 4) 5 _ _ (initiator_run 3 4 5),
   actOneMessageSize.2.2.2.2.1 1 2 [9] [1, 2, 3] [] (by decide),
   actOneMessageSize.2.2.2.2.2 1 2 [9] (List.replicate 70 0) []
     (by rw [List.length_replicate]; decide)⟩

/-- C2: contrary to the claim (and to the function's own doc comment), a
cryptographic (decrypt) failure from an attempt IS retried by the read
loop: with outcome trace (decrypt failure, then success) the loop performs
a second attempt and returns the success instead of the error; five
consecutive crypto errors are needed before one is returned; meanwhile a
retryable stream error never increments the attempt counter, so ten of
them in a row leave the loop still running. -/
theorem read_retries_decrypt_failure :
    kkReadLoop [.err (.noise .invalidCiphertext), .ok [42]] 0 = some (.ok [42])
  ∧ kkReadLoop [.err (.noise .invalidCiphertext), .ok [42]] 0
      ≠ some (.error (.noise .invalidCiphertext))
  ∧ kkReadLoop (List.replicate 5 (.err (.noise .snowError))) 0
      = some (.error (.noise .snowError))
  ∧ kkReadLoop (List.replicate 10 (.err (.transport (.other 0)))) 0 = none := by
  decide

/-- C3: the Act One responder tries candidates in order: a candidate whose
cryptographic read fails is skipped in favour of the rest of the list; a
candidate whose read succeeds with a payload differing from the protocol
tag makes the whole responder fail immediately with `BadHandshake`; and if
every candidate builds but fails to read, the responder returns
`MissingStaticKey`. -/
theorem responder_candidate_search :
    (∀ (S : Type) (E : Engine S) (sk : Nat) (msg : List Nat) (pk : Nat) (rest : List Nat)
       (st : S), E.build sk pk = .ok st → isErr (E.readMsg st msg) = true →
       responderGen E sk (pk :: rest) msg = responderGen E sk rest msg)
  ∧ (∀ (S : Type) (E : Engine S) (sk : Nat) (msg : List Nat) (pk : Nat) (rest : List Nat)
       (st st' : S) (payload : List Nat),
       E.build sk pk = .ok st → E.readMsg st msg = .ok (st', payload) →
       (padTo KK_MSG_1_SIZE payload).take HANDSHAKE_MESSAGE.length ≠ HANDSHAKE_MESSAGE →
       responderGen E sk (pk :: rest) msg = .error .badHandshake)
  ∧ (∀ (S : Type) (E : Engine S) (sk : Nat) (msg : List Nat) (pks : List Nat),
       (∀ pk ∈ pks, ∃ st, E.build sk pk = .ok st ∧ isErr (E.readMsg st msg) = true) →
       responderGen E sk pks msg = .error .missingStaticKey) := by
  refine ⟨?_, ?_, ?_⟩
  · intro S E sk msg pk rest st hb hr
    cases hread : E.readMsg st msg with
    | error e => simp only [responderGen, hb, hread]
    | ok v => rw [hread] at hr; simp [isErr] at hr
  · intro S E sk msg pk rest st st' payload hb hread hne
    simp only [responderGen, hb, hread]
    rw [if_neg hne]
  · intro S E sk msg pks h
    induction pks with
    | nil => rfl
    | cons pk rest ih =>
      obtain ⟨st, hb, hr⟩ := h pk (by simp)
      cases hread : E.readMsg st msg with
      | error e =>
        simp only [responderGen, hb, hread]
        exact ih (fun q hq => h q (by simp [hq]))
      | ok v => rw [hread] at hr; simp [isErr] at hr

/-- C3 witness: with the toy engine and secret 2, candidate 0 (read
failure) is skipped, candidate 5 (read success, wrong payload) aborts with
`BadHandshake`, and the all-failing list [0, 2] yields
`MissingStaticKey`. -/
theorem responder_candidate_search_witness :
    responderGen toyEngine 2 [0, 1] [7] = responderGen toyEngine 2 [1] [7]
  ∧ responderGen toyEngine 2 [5, 77] [7] = .error .badHandshake
  ∧ responderGen toyEngine 2 [0, 2] [7] = .error .missingStaticKey :=
  ⟨responder_candidate_search.1 Nat toyEngine 2 [7] 0 [1] 2 rfl rfl,
   responder_candidate_search.2.1 Nat toyEngine 2 [7] 5 [77] 7 7 [1] rfl rfl (by decide),
   responder_candidate_search.2.2 Nat toyEngine 2 [7] [0, 2] (by
     intro pk hpk
     rcases (by simpa using hpk : pk = 0 ∨ pk = 2) with h | h
     · subst h; exact ⟨2, rfl, rfl⟩
     · subst h; exact ⟨4, rfl, rfl⟩)⟩

/-- C4: `encrypt_message` fails, and then with `InvalidPlaintext`, exactly
when the plaintext exceeds `NOISE_PLAINTEXT_MAX_SIZE` = 65501 bytes; the
check precedes any cryptographic work (the channel state is untouched on
failure); on success the ciphertext is the 18-byte header encrypting the
2-byte big-endian value `MAC_SIZE + len`, followed by the encrypted body,
for a total of `len + 34` bytes. -/
theorem encrypt_message_spec (ch : KKChannel) (m : List Nat) :
    ((KKChannel.encrypt_message ch m).1 = .error .invalidPlaintext
       ↔ NOISE_PLAINTEXT_MAX_SIZE < m.length)
  ∧ (NOISE_PLAINTEXT_MAX_SIZE < m.length →
       KKChannel.encrypt_message ch m = (.error .invalidPlaintext, ch))
  ∧ (m.length ≤ NOISE_PLAINTEXT_MAX_SIZE →
       ∃ c, (KKChannel.encrypt_message ch m).1 = .ok c
         ∧ c.length = m.length + 34
         ∧ c = cipherEncrypt ch.transport_state.send.key ch.transport_state.send.nonce
                 (toBE2 (MAC_SIZE + m.length))
             ++ cipherEncrypt ch.transport_state.send.key
                 (ch.transport_state.send.nonce + 1) m
         ∧ (cipherEncrypt ch.transport_state.send.key ch.transport_state.send.nonce
              (toBE2 (MAC_SIZE + m.length))).length = NOISE_MESSAGE_HEADER_SIZE) := by
  have hmax : NOISE_PLAINTEXT_MAX_SIZE = 65501 := rfl
  have hm16 : MAC_SIZE = 16 := rfl
  refine ⟨⟨?_, fun h => by rw [encrypt_message_err ch m h]⟩,
    fun h => encrypt_message_err ch m h, fun h => ?_⟩
  · intro herr
    by_contra hgt
    push_neg at hgt
    rw [encrypt_message_ok ch m hgt] at herr
    cases herr
  · have hmod : (MAC_SIZE + m.length) % 65536 = MAC_SIZE + m.length :=
      Nat.mod_eq_of_lt (by omega)
    refine ⟨_, by rw [encrypt_message_ok ch m h], ?_, by rw [hmod], ?_⟩
    · rw [List.length_append, cipherEncrypt_length, cipherEncrypt_length, toBE2_length]
      have : LENGTH_PREFIX_SIZE = 2 := rfl
      omega
    · rw [cipherEncrypt_length, toBE2_length]
      rfl

/-- C4 witness: on a fresh channel, a 65502-byte plaintext is rejected with
`InvalidPlaintext`, the empty plaintext encrypts fine, and its ciphertext
is 34 bytes. -/
theorem encrypt_message_spec_witness :
    (KKChannel.encrypt_message ⟨⟨⟨1, 0⟩, ⟨2, 0⟩, some 9⟩⟩ (List.replicate 65502 0)).1
      = .error .invalidPlaintext
  ∧ (∃ c, (KKChannel.encrypt_message ⟨⟨⟨1, 0⟩, ⟨2, 0⟩, some 9⟩⟩ ([] : List Nat)).1 = .ok c
       ∧ c.length = 0 + 34) := by
  refine ⟨(encrypt_message_spec _ _).1.mpr (by rw [List.length_replicate]; decide), ?_⟩
  obtain ⟨c, h1, h2, -, -⟩ :=
    (encrypt_message_spec ⟨⟨⟨1, 0⟩, ⟨2, 0⟩, some 9⟩⟩ ([] : List Nat)).2.2 (by decide)
  exact ⟨c, h1, h2⟩

/-- C5: after a successful bidirectional handshake, encrypting any
well-formed plaintext of length at most 65501 on the initiator's channel
and then decrypting the 18-byte header followed by the announced body on
the responder's channel returns exactly the original plaintext. -/
theorem channel_roundtrip (skI skR eI eR : Nat) (m : List Nat)
    (hwf : ∀ b ∈ m, b < 256) (hlen : m.length ≤ NOISE_PLAINTEXT_MAX_SIZE) :
    ∃ chI chR c chI' chR',
      fullHandshake skI skR eI eR = .ok (chI, chR)
      ∧ KKChannel.encrypt_message chI m = (.ok c, chI')
      ∧ decryptFramed chR c = (.ok m, chR') := by
  refine ⟨chanIv skI skR eI eR, chanRv skI skR eI eR,
    cipherEncrypt (mixKey (K4v skI skR eI eR) 1) 0 (toBE2 ((MAC_SIZE + m.length) % 65536))
      ++ cipherEncrypt (mixKey (K4v skI skR eI eR) 1) (0 + 1) m,
    ⟨⟨⟨mixKey (K4v skI skR eI eR) 1, 0 + 1 + 1⟩, ⟨mixKey (K4v skI skR eI eR) 2, 0⟩,
       some (pubOf skR)⟩⟩,
    ⟨⟨⟨mixKey (K4v skI skR eI eR) 2, 0⟩, ⟨mixKey (K4v skI skR eI eR) 1, 0 + 1 + 1⟩,
       some (pubOf skI)⟩⟩,
    fullHandshake_run skI skR eI eR, ?_, ?_⟩
  · exact encrypt_message_ok (chanIv skI skR eI eR) m hlen
  · exact framed_roundtrip (mixKey (K4v skI skR eI eR) 1) 0
      ⟨mixKey (K4v skI skR eI eR) 2, 0⟩ (some (pubOf skI)) m hwf hlen

/-- C5 witness: a concrete handshake followed by the encrypt/decrypt
pipeline reproduces the plaintext `[104, 105]`. -/
theorem channel_roundtrip_witness : roundTripRun 3 4 5 6 [104, 105] = some [104, 105] := by
  obtain ⟨chI, chR, c, chI', chR', h1, h2, h3⟩ :=
    channel_roundtrip 3 4 5 6 [104, 105] (by decide) (by decide)
  unfold roundTripRun
  rw [h1]
  dsimp only []
  rw [h2]
  dsimp only []
  rw [h3]

/-- C6: `decrypt_message` rejects an input shorter than `MAC_SIZE` or longer
than `NOISE_MESSAGE_MAX_SIZE` with `InvalidCiphertext` before attempting
any decryption, leaving the channel state unchanged; an `InvalidCiphertext`
error arises only from those guards; and a successful decryption returns a
plaintext exactly `MAC_SIZE` bytes shorter than the input. -/
theorem decrypt_message_bounds (ch : KKChannel) (message : List Nat) :
    (message.length < MAC_SIZE →
       KKChannel.decrypt_message ch message = (.error .invalidCiphertext, ch))
  ∧ (NOISE_MESSAGE_MAX_SIZE < message.length →
       KKChannel.decrypt_message ch message = (.error .invalidCiphertext, ch))
  ∧ ((KKChannel.decrypt_message ch message).1 = .error .invalidCiphertext →
       message.length < MAC_SIZE ∨ NOISE_MESSAGE_MAX_SIZE < message.length)
  ∧ (∀ p ch', KKChannel.decrypt_message ch message = (.ok p, ch') →
       p.length = message.length - MAC_SIZE) := by
  refine ⟨?_, ?_, ?_, ?_⟩
  · intro h
    unfold KKChannel.decrypt_message
    by_cases hbig : NOISE_MESSAGE_MAX_SIZE < message.length
    · rw [if_pos hbig]
    · rw [if_neg hbig, if_pos h]
  · intro h
    unfold KKChannel.decrypt_message
    rw [if_pos h]
  · intro h
    by_cases hbig : NOISE_MESSAGE_MAX_SIZE < message.length
    · right; exact hbig
    · by_cases hsmall : message.length < MAC_SIZE
      · left; exact hsmall
      · exfalso
        unfold KKChannel.decrypt_message at h
        rw [if_neg hbig, if_neg hsmall] at h
        cases hsr : stRead ch.transport_state.recv message with
        | none => rw [hsr] at h; cases h
        | some v => rw [hsr] at h; cases h
  · intro p ch' h
    unfold KKChannel.decrypt_message at h
    by_cases hbig : NOISE_MESSAGE_MAX_SIZE < message.length
    · rw [if_pos hbig] at h; cases h
    · by_cases hsmall : message.length < MAC_SIZE
      · rw [if_neg hbig, if_pos hsmall] at h; cases h
      · rw [if_neg hbig, if_neg hsmall] at h
        cases hsr : stRead ch.transport_state.recv message with
        | none => rw [hsr] at h; cases h
        | some v =>
          obtain ⟨payload, cs'⟩ := v
          rw [hsr] at h
          dsimp only [] at h
          have hp : (padTo message.length payload).take (message.length - MAC_SIZE) = p :=
            Except.ok.inj (congrArg Prod.fst h)
          rw [← hp, List.length_take]
          simp only [padTo, List.length_append, List.length_replicate]
          omega

/-- C6 witness: a 3-byte input is rejected with the channel state unchanged,
and a successful decryption of an 18-byte ciphertext yields a plaintext of
18 - 16 = 2 bytes. -/
theorem decrypt_message_bounds_witness :
    KKChannel.decrypt_message ⟨⟨⟨5, 0⟩, ⟨7, 0⟩, some 9⟩⟩ [1, 2, 3]
      = (.error .invalidCiphertext, ⟨⟨⟨5, 0⟩, ⟨7, 0⟩, some 9⟩⟩)
  ∧ ([9, 8] : List Nat).length = (cipherEncrypt 7 0 [9, 8]).length - MAC_SIZE :=
  ⟨(decrypt_message_bounds ⟨⟨⟨5, 0⟩, ⟨7, 0⟩, some 9⟩⟩ [1, 2, 3]).1 (by decide),
   (decrypt_message_bounds ⟨⟨⟨5, 0⟩, ⟨7, 0⟩, some 9⟩⟩ (cipherEncrypt 7 0 [9, 8])).2.2.2
     [9, 8] ⟨⟨⟨5, 0⟩, ⟨7, 1⟩, some 9⟩⟩ (by decide)⟩

/-- C7: `write` encrypts first and returns an encryption failure at once,
independent of the stream and with no write attempt or sleep; on success of
the stream write the whole ciphertext is appended to the stream; a failing
stream write is retried up to 5 attempts in total with one sleep between
consecutive attempts, and the fifth failure is returned as the final
error after 4 sleeps. -/
theorem write_retry_policy :
    (∀ ch m outs sink, NOISE_PLAINTEXT_MAX_SIZE < m.length →
       KKTransport.write ch m outs sink
         = some (.error (.noise .invalidPlaintext), ch, sink, 0))
  ∧ (∀ ch m c ch' sink, KKChannel.encrypt_message ch m = (.ok c, ch') →
       (∀ errs rest, (∀ o ∈ errs, o ≠ none) → errs.length ≤ 4 →
          KKTransport.write ch m (errs ++ none :: rest) sink
            = some (.ok (), ch', sink ++ c, errs.length))
       ∧ ∀ k1 k2 k3 k4 k5 rest,
          KKTransport.write ch m
              (some k1 :: some k2 :: some k3 :: some k4 :: some k5 :: rest) sink
            = some (.error (.transport k5), ch', sink, 4)) := by
  constructor
  · intro ch m outs sink h
    unfold KKTransport.write
    rw [encrypt_message_err ch m h]
  · intro ch m c ch' sink henc
    constructor
    · intro errs rest hne hle
      unfold KKTransport.write
      rw [henc]
      dsimp only []
      rw [writeAllLoop_ok c sink rest errs 0 0 hne (by omega)]
      dsimp only [Option.map]
      rw [Nat.zero_add]
    · intro k1 k2 k3 k4 k5 rest
      unfold KKTransport.write
      rw [henc]
      dsimp only []
      rw [writeAllLoop_exhaust]
      rfl

/-- C7 witness: an oversized plaintext is rejected without any write
attempt; with one stream failure then a success the ciphertext lands in
the sink after one sleep; five straight failures return the fifth error
after four sleeps. -/
theorem write_retry_policy_witness :
    KKTransport.write ⟨⟨⟨1, 0⟩, ⟨2, 0⟩, some 9⟩⟩ (List.replicate 65502 0) [none] []
      = some (.error (.noise .invalidPlaintext), ⟨⟨⟨1, 0⟩, ⟨2, 0⟩, some 9⟩⟩, [], 0)
  ∧ KKTransport.write ⟨⟨⟨1, 0⟩, ⟨2, 0⟩, some 9⟩⟩ [1, 2] [some (.other 0), none] []
      = some (.ok (), ⟨⟨⟨1, 0 + 1 + 1⟩, ⟨2, 0⟩, some 9⟩⟩,
          [] ++ (cipherEncrypt 1 0 (toBE2 ((MAC_SIZE + 2) % 65536))
                  ++ cipherEncrypt 1 (0 + 1) [1, 2]), 1)
  ∧ KKTransport.write ⟨⟨⟨1, 0⟩, ⟨2, 0⟩, some 9⟩⟩ [1, 2]
        [some (.other 0), some (.other 1), some (.other 2), some (.other 3), some (.other 4)]
        []
      = some (.error (.transport (.other 4)), ⟨⟨⟨1, 0 + 1 + 1⟩, ⟨2, 0⟩, some 9⟩⟩, [], 4) := by
  have henc := encrypt_message_ok ⟨⟨⟨1, 0⟩, ⟨2, 0⟩, some 9⟩⟩ [1, 2] (by decide)
  refine ⟨write_retry_policy.1 _ _ [none] [] (by rw [List.length_replicate]; decide), ?_, ?_⟩
  · exact ((write_retry_policy.2 _ _ _ _ [] henc).1 [some (.other 0)] [] (by decide)
      (by decide) : _)
  · exact (write_retry_policy.2 _ _ _ _ [] henc).2 (.other 0) (.other 1) (.other 2)
      (.other 3) (.other 4) []

/-- C8: `remote_static` never surfaces an error: every channel built by
`from_handshake` carries `some` remote static key (so the source's `expect`
abort path is unreachable), and after a full handshake each side reports
exactly the peer's static public key bound during the handshake. -/
theorem remote_static_total :
    (∀ st ch, KKChannel.from_handshake st = .ok ch →
       ch.remote_static = some st.state.remoteStatic)
  ∧ (∀ skI skR eI eR chI chR, fullHandshake skI skR eI eR = .ok (chI, chR) →
       chI.remote_static = some (pubOf skR) ∧ chR.remote_static = some (pubOf skI)) := by
  constructor
  · intro st ch h
    unfold KKChannel.from_handshake hsIntoTransportMode at h
    by_cases hstep : st.state.step = 2
    · rw [if_pos hstep] at h
      dsimp only [Except.map] at h
      have := Except.ok.inj h
      rw [← this]
      rfl
    · rw [if_neg hstep] at h
      dsimp only [Except.map] at h
      cases h
  · intro skI skR eI eR chI chR h
    rw [fullHandshake_run] at h
    have := Except.ok.inj h
    have h1 : chI = chanIv skI skR eI eR := (congrArg Prod.fst this).symm
    have h2 : chR = chanRv skI skR eI eR := (congrArg Prod.snd this).symm
    subst h1
    subst h2
    exact ⟨rfl, rfl⟩

/-- C8 witness: a concrete completed Act Two yields a channel reporting the
bound key 2, and the concrete full handshake reports each peer's public
key. -/
theorem remote_static_total_witness :
    KKChannel.remote_static ⟨⟨⟨mixKey 9 1, 0⟩, ⟨mixKey 9 2, 0⟩, some 2⟩⟩ = some 2
  ∧ (chanIv 3 4 5 6).remote_static = some (pubOf 4)
  ∧ (chanRv 3 4 5 6).remote_static = some (pubOf 3) := by
  refine ⟨remote_static_total.1 ⟨⟨true, 1, 2, 3, 4, 9, 2⟩⟩ _ (by decide), ?_, ?_⟩
  · exact (remote_static_total.2 3 4 5 6 _ _ (fullHandshake_run 3 4 5 6)).1
  · exact (remote_static_total.2 3 4 5 6 _ _ (fullHandshake_run 3 4 5 6)).2

/-- C9: with an empty candidate list the Act One responder fails with
`MissingStaticKey` for every secret key and every incoming message, and
this holds for every engine whatsoever, so no cryptographic operation on
the message can be involved. -/
theorem responder_empty_candidates :
    (∀ (S : Type) (E : Engine S) (sk : Nat) (msg : List Nat),
       responderGen E sk [] msg = .error .missingStaticKey)
  ∧ (∀ (sk eph : Nat) (msg : List Nat),
       KKHandshakeActOne.responder sk eph [] msg = .error .missingStaticKey) :=
  ⟨fun _ _ _ _ => rfl, fun _ _ _ => rfl⟩

/-- C10: if building the responder engine instance for a candidate fails,
the responder returns that very error immediately, whatever candidates
remain. -/
theorem responder_build_error_immediate (S : Type) (E : Engine S) (sk : Nat)
    (msg : List Nat) (pk : Nat) (rest : List Nat) (e : NoiseError)
    (h : E.build sk pk = .error e) :
    responderGen E sk (pk :: rest) msg = .error e := by
  simp only [responderGen, h]

/-- C10 witness: with the always-failing builder the responder returns the
build error even though candidates remain. -/
theorem responder_build_error_immediate_witness :
    responderGen failEngine 0 [5, 6] [] = .error .snowError :=
  responder_build_error_immediate Nat failEngine 0 [] 5 [6] .snowError rfl

end RevaultNet
